import Mathlib

/-!
Verification of the `pin` credential-vault client.

This file gives a shallow embedding of the parts of the repository that the
specified properties talk about:

* `ApiService` (src/src/app/api-service.ts): endpoint validation,
  base-URL construction, and the HTTP headers attached to each of the five
  backup operations (list, latest, export, import, health);
* `Service` (src/src/app/services/service.ts): the credential store's
  `existsByName`, `add` and `update` operations with their duplicate-name
  guards;
* `HomePage` (src/src/app/home/home.page.ts): the backup export envelope and
  the two import paths with their `Array.isArray` shape guard;
* `PinDetailPage` (src/src/app/pin-detail/pin-detail.page.ts): the
  masked/revealed state machine with its interval tick and terminal timeout,
  and `maskPin`.

Stateful TypeScript methods become pure functions with explicit state
passing; thrown `Error` values become `Except String`; JavaScript timers
become an explicit step relation whose events carry their firing times.
-/

/-! ## Data model -/

/-- A stored credential: `PinItem` of src/src/app/services/service.ts. -/
structure PinItem where
  name : String
  pin : String
deriving Repr, DecidableEq

/-! ## ApiService: endpoint validation (src/src/app/api-service.ts)

`ApiService.validate` tests the candidate ip against the regular expression

  `/^(192\.168\.|10\.|172\.(1[6-9]|2[0-9]|3[0-1]))([0-9]{1,3}\.){1,2}[0-9]{1,3}$/`

and parses the port with `parseInt(port, 10)`.  The three prefix
alternatives are distinguished by their first two characters, so the
alternation is deterministic; after the prefix, the suffix
`([0-9]{1,3}\.){1,2}[0-9]{1,3}` matches exactly the strings consisting of
two or three dot-separated runs of one to three digits.  The embedding
below implements that matcher over `List Char`. -/

/-- Splits a character list at every `'.'`; dots are separators, so `n`
dots yield `n + 1` (possibly empty) segments, mirroring how the regex
suffix `([0-9]{1,3}\.){1,2}[0-9]{1,3}` decomposes its input. -/
def splitOnDot : List Char → List (List Char)
  | [] => [[]]
  | c :: rest =>
    let segs := splitOnDot rest
    if c = '.' then [] :: segs
    else
      match segs with
      | [] => [[c]]
      | s :: ss => (c :: s) :: ss

/-- One dot-separated segment is accepted by the regex suffix when it is a
run of one to three characters from `[0-9]`. -/
def segOk (seg : List Char) : Bool :=
  decide (1 ≤ seg.length) && decide (seg.length ≤ 3) && seg.all Char.isDigit

/-- The part of the ip after the matched prefix must consist of two or
three dot-separated digit runs (`([0-9]{1,3}\.){1,2}[0-9]{1,3}$`). -/
def tailOk (cs : List Char) : Bool :=
  let segs := splitOnDot cs
  (decide (segs.length = 2) || decide (segs.length = 3)) && segs.all segOk

/-- The two characters demanded right after `"172."` by the alternative
`172\.(1[6-9]|2[0-9]|3[0-1])` of the validation regex.  Note the regex has
no `\.` after this group. -/
def code172 (c1 c2 : Char) : Bool :=
  (c1 = '1' && ('6' ≤ c2 && c2 ≤ '9')) ||
  (c1 = '2' && c2.isDigit) ||
  (c1 = '3' && (c2 = '0' || c2 = '1'))

/-- `ipRegex.test ip` from `ApiService.validate`: the anchored regex
`^(192\.168\.|10\.|172\.(1[6-9]|2[0-9]|3[0-1]))([0-9]{1,3}\.){1,2}[0-9]{1,3}$`. -/
def ipRegexTest (s : String) : Bool :=
  match s.data with
  | '1' :: '9' :: '2' :: '.' :: '1' :: '6' :: '8' :: '.' :: rest => tailOk rest
  | '1' :: '0' :: '.' :: rest => tailOk rest
  | '1' :: '7' :: '2' :: '.' :: c1 :: c2 :: rest => code172 c1 c2 && tailOk rest
  | _ => false

/-- Digit-run parser underlying `parseInt(s, 10)`: the longest leading run
of decimal digits, `none` when there is none (JavaScript `NaN`). -/
def parseDigits (cs : List Char) : Option Nat :=
  let ds := cs.takeWhile Char.isDigit
  if ds.isEmpty then none
  else some (ds.foldl (fun acc c => acc * 10 + (c.toNat - '0'.toNat)) 0)

/-- JavaScript `parseInt(s, 10)`: skip leading whitespace, read an optional
sign and then the longest run of decimal digits; `none` models `NaN`. -/
def parseIntJs (s : String) : Option Int :=
  let cs := s.data.dropWhile Char.isWhitespace
  match cs with
  | '-' :: rest => (parseDigits rest).map (fun n => -(n : Int))
  | '+' :: rest => (parseDigits rest).map (fun n => (n : Int))
  | _ => (parseDigits cs).map (fun n => (n : Int))

/-- `ApiService.validate(ip, port)`: throws `'Nur interne IP erlaubt'` when
the regex rejects the ip, and `'Port ungültig'` when `!p || p < 1 ||
p > 65535` for `p = parseInt(port, 10)` (`!p` is true for `NaN` and `0`). -/
def validate (ip port : String) : Except String Unit :=
  if ipRegexTest ip = false then .error "Nur interne IP erlaubt"
  else
    match parseIntJs port with
    | none => .error "Port ungültig"
    | some p =>
      if p = 0 ∨ p < 1 ∨ p > 65535 then .error "Port ungültig" else .ok ()

/-- The mutable state of `ApiService`: in-memory `ip`, `port`, `baseUrl`,
plus the two persisted preference entries `server_ip` and `server_port`. -/
structure ApiConn where
  ip : String
  port : String
  baseUrl : String
  prefServerIp : Option String
  prefServerPort : Option String
deriving Repr, DecidableEq

/-- `ApiService.buildBaseUrl`: sets ``baseUrl = `http://${ip}:${port}/api` ``. -/
def buildBaseUrl (c : ApiConn) : ApiConn :=
  { c with baseUrl := "http://" ++ c.ip ++ ":" ++ c.port ++ "/api" }

/-- `ApiService.setConnection(ip, port)`: validate, assign the fields,
persist both preference keys, then rebuild the base URL. -/
def setConnection (c : ApiConn) (ip port : String) : Except String ApiConn :=
  match validate ip port with
  | .error e => .error e
  | .ok _ =>
    .ok (buildBaseUrl { c with
      ip := ip, port := port,
      prefServerIp := some ip, prefServerPort := some port })

/-- The state of a freshly constructed `ApiService` before `init`. -/
def initialConn : ApiConn :=
  { ip := "", port := "", baseUrl := "", prefServerIp := none, prefServerPort := none }

/-! ## Service: the credential store (src/src/app/services/service.ts) -/

/-- JavaScript `String.prototype.trim`: remove leading and trailing
whitespace.  `List.rdropWhile` drops from the right, so this is
trim-start followed by trim-end, as in JS. -/
def jsTrim (s : String) : String :=
  String.mk (List.rdropWhile Char.isWhitespace (s.data.dropWhile Char.isWhitespace))

/-- JavaScript `String.prototype.toLowerCase` (and, for the ASCII names at
hand, `toLocaleLowerCase`): lowercase each character. -/
def jsToLower (s : String) : String :=
  String.mk (s.data.map Char.toLower)

/-- Name normalisation used throughout the store: `trim` then lowercase
(the source uses `toLocaleLowerCase` in `existsByName` and `toLowerCase`
in `update`; both lowercase ASCII names identically). -/
def normalizeName (s : String) : String :=
  jsToLower (jsTrim s)

namespace Service

/-- `Service.existsByName(name)`: does some stored item's normalised name
equal the normalised argument? -/
def existsByName (itemList : List PinItem) (name : String) : Bool :=
  let normalized := jsToLower (jsTrim name)
  itemList.any fun item => jsToLower (jsTrim item.name) == normalized

/-- `Service.add(item)`: throws (an `Error` with empty message) when a
stored item already has the same normalised name, otherwise prepends the
item.  The persisted list always equals the in-memory list, so the state
is just the list. -/
def add (itemList : List PinItem) (item : PinItem) : Except String (List PinItem) :=
  if existsByName itemList item.name then .error ""
  else .ok (item :: itemList)

/-- `Service.update(index, updated)`: no-op for a missing index; when the
normalised name changed, throws `'NAME_EXISTS'` if any other index holds
the new normalised name; otherwise stores the trimmed fields at `index`. -/
def update (itemList : List PinItem) (index : Nat) (updated : PinItem) :
    Except String (List PinItem) :=
  match itemList[index]? with
  | none => .ok itemList
  | some item =>
    let newName := jsTrim updated.name
    let newPin := jsTrim updated.pin
    if jsToLower (jsTrim item.name) ≠ jsToLower newName then
      if itemList.enum.any
          (fun p => decide (p.1 ≠ index) && (jsToLower (jsTrim p.2.name) == jsToLower newName)) then
        .error "NAME_EXISTS"
      else
        .ok (itemList.set index { name := newName, pin := newPin })
    else
      .ok (itemList.set index { name := newName, pin := newPin })

end Service

/-- A stored item's normalised name. -/
def normName (it : PinItem) : String := normalizeName it.name

/-- Normalised-name uniqueness: no two positions of the list hold items
whose names collapse to the same `trim`+lowercase form. -/
def UniqNames (l : List PinItem) : Prop :=
  ∀ i j : Fin l.length, i ≠ j → normName (l.get i) ≠ normName (l.get j)

instance (l : List PinItem) : Decidable (UniqNames l) := by
  unfold UniqNames; infer_instance

/-! ## HomePage: backup export and import (src/src/app/home/home.page.ts) -/

/-- The JavaScript value found at `payload.items` of a backup response:
either an actual array of items or some non-array value.  `Array.isArray`
distinguishes exactly the first constructor. -/
inductive JsValue where
  | arr (items : List PinItem)
  | str (s : String)
  | num (n : Int)
  | bool (b : Bool)
  | null
  | undef
deriving Repr, DecidableEq

/-- JavaScript `Array.isArray`. -/
def JsValue.isArray : JsValue → Bool
  | .arr _ => true
  | _ => false

/-- The `payload` object of a backup envelope: `{ items: ... }`. -/
structure BackupPayload where
  items : JsValue
deriving Repr, DecidableEq

/-- The `meta` object built by `HomePage.exportJSON`. -/
structure ExportMeta where
  device : String
  appVersion : String
deriving Repr, DecidableEq

/-- The export request body built by `HomePage.exportJSON`:
`{ schemaVersion, payload: { items: this.service.itemList }, meta }`. -/
structure ExportBody where
  schemaVersion : Nat
  payload : BackupPayload
  meta : ExportMeta
deriving Repr, DecidableEq

/-- `HomePage.exportJSON` body for a given item list, with
`environment.backupApi.schemaVersion = 2` (src/src/environments). -/
def exportBody (itemList : List PinItem) : ExportBody :=
  { schemaVersion := 2
    payload := { items := .arr itemList }
    meta := { device := "android", appVersion := "1.0" } }

/-- The backup object `HomePage.importJSON` reads off the latest-backup
response (`latest.backup?.payload`): an optional `payload`. -/
structure LatestBackup where
  payload : Option BackupPayload
deriving Repr, DecidableEq

/-- The runtime shape `HomePage.importJSON` reads from the response of
`ApiService.latest`: an optional `backup` object and an optional `path`. -/
structure LatestWire where
  backup : Option LatestBackup
  path : Option String
deriving Repr, DecidableEq

/-- The value of `latest.backup?.payload`, then `payload?.items`:
`undefined` when either link is absent. -/
def latestItems (r : LatestWire) : JsValue :=
  match r.backup.bind (fun b => b.payload) with
  | none => .undef
  | some p => p.items

/-- JavaScript template interpolation of a possibly-undefined value. -/
def jsShow (o : Option String) : String :=
  match o with
  | some s => s
  | none => "undefined"

/-- Outcome of an import attempt: the user-visible notice it raises. -/
inductive ImportOutcome where
  | rejected (notice : String)
  | success (header : String)
deriving Repr, DecidableEq

/-- `HomePage.importJSON` after the `latest` call resolved to `r`, acting
on the current item list: when `payload.items` is not an array the import
is rejected with the shape notice and the list is untouched; otherwise the
received array wholesale replaces the list (and is persisted). -/
def importJSON (r : LatestWire) (itemList : List PinItem) :
    List PinItem × ImportOutcome :=
  match latestItems r with
  | .arr xs => (xs, .success ("Import erfolgreich :\n" ++ jsShow r.path))
  | _ => (itemList, .rejected "Backup ist ungültig: payload fehlt oder kein Array")

/-- The value of `res.payload?.items` inside `HomePage.listImport`:
`undefined` when the response has no payload. -/
def importResItems (resPayload : Option BackupPayload) : JsValue :=
  match resPayload with
  | none => .undef
  | some p => p.items

/-- The import handler inside `HomePage.listImport` after
`backupApi.import` resolved: reads `res.payload?.items`, rejects non-array
shapes with `'Backup ist ungültig'`, otherwise adopts the array. -/
def listImportHandler (resPayload : Option BackupPayload) (path : String)
    (itemList : List PinItem) : List PinItem × ImportOutcome :=
  match importResItems resPayload with
  | .arr xs => (xs, .success ("Import erfolgreich " ++ path))
  | _ => (itemList, .rejected "Backup ist ungültig")

/-! ## PinDetailPage: the reveal state machine
(src/src/app/pin-detail/pin-detail.page.ts)

`isRevealed`/`progress` are the component fields; the two JavaScript timer
handles are modelled by what the live callbacks know: the armed
`setTimeout` by its absolute firing time, the armed `setInterval` by the
`start` timestamp and `totalMs` captured in its closure.  Timer callbacks
only ever run while their handle is armed (`clearTimeout`/`clearInterval`
discard pending callbacks), which the step relation below enforces. -/

/-- Component state of `PinDetailPage`, plus the list of `alert` notices
raised so far (most recent first). -/
structure RevealState where
  entry : Option PinItem
  isRevealed : Bool
  progress : ℚ
  timeoutId : Option Nat
  intervalId : Option (Nat × Nat)
  alerts : List String
deriving Repr, DecidableEq

/-- The component as constructed (and after `ngOnInit` resolved the route
entry to `e`): masked, zero progress, no timers. -/
def initState (e : Option PinItem) : RevealState :=
  { entry := e, isRevealed := false, progress := 0,
    timeoutId := none, intervalId := none, alerts := [] }

/-- `PinDetailPage.clearTimers`: disarm both timers. -/
def clearTimers (s : RevealState) : RevealState :=
  { s with timeoutId := none, intervalId := none }

/-- `PinDetailPage.hidePin`: re-mask, reset progress, disarm both timers. -/
def hidePin (s : RevealState) : RevealState :=
  clearTimers { s with isRevealed := false, progress := 0 }

/-- `PinDetailPage.showPin(seconds)` resumed after `verifyBiometric`
returned `verified`, with `Date.now() = now`: on failure, alert and leave
the state untouched; on success, clear any previous timers, reveal with
progress 1, and arm the interval (period 50 ms) and the terminal timeout
(`totalMs = seconds * 1000`). -/
def showPin (seconds : Nat) (verified : Bool) (now : Nat) (s : RevealState) : RevealState :=
  if verified = false then
    { s with alerts := "Biometrische Authentifizierung fehlgeschlagen" :: s.alerts }
  else
    let totalMs := seconds * 1000
    let s := clearTimers s
    { s with isRevealed := true, progress := 1,
             intervalId := some (now, totalMs),
             timeoutId := some (now + totalMs) }

/-- `PinDetailPage.toggleReveal`: no-op without an entry; hide when
revealed, otherwise run `showPin(3)` (whose biometric outcome is
`verified`). -/
def toggleReveal (verified : Bool) (now : Nat) (s : RevealState) : RevealState :=
  match s.entry with
  | none => s
  | some _ => if s.isRevealed then hidePin s else showPin 3 verified now s

/-- The `setInterval` callback body at `Date.now() = now`:
`remaining = max(0, totalMs - elapsed)` (truncated `Nat` subtraction is
exactly this clamp), `progress = remaining / totalMs`, and `hidePin` once
`remaining` hits zero. -/
def intervalTick (now : Nat) (s : RevealState) : RevealState :=
  match s.intervalId with
  | none => s
  | some (start, totalMs) =>
    let elapsed := now - start
    let remaining := totalMs - elapsed
    let s := { s with progress := (remaining : ℚ) / (totalMs : ℚ) }
    if remaining = 0 then hidePin s else s

/-- The `setTimeout` callback body: `() => this.hidePin()`. -/
def timeoutFire (s : RevealState) : RevealState :=
  hidePin s

/-- One event of the component's single-threaded event loop: a user
toggle (with the biometric outcome it awaits), an interval tick at its
`k`-th scheduled time, the terminal timeout at its scheduled time, or the
view's `ngOnDestroy`.  Timer events require their timer to be armed. -/
inductive RevealStep : RevealState → RevealState → Prop where
  | toggle (verified : Bool) (now : Nat) (s : RevealState) :
      RevealStep s (toggleReveal verified now s)
  | tick (s : RevealState) (start totalMs k : Nat)
      (h : s.intervalId = some (start, totalMs)) (hk : 1 ≤ k) :
      RevealStep s (intervalTick (start + 50 * k) s)
  | timeout (s : RevealState) (t : Nat) (h : s.timeoutId = some t) :
      RevealStep s (timeoutFire s)
  | destroy (s : RevealState) :
      RevealStep s (clearTimers s)

/-- The states the component can reach from construction. -/
inductive RevealReachable : RevealState → Prop where
  | init (e : Option PinItem) : RevealReachable (initState e)
  | step {s s' : RevealState} :
      RevealReachable s → RevealStep s s' → RevealReachable s'

/-- `PinDetailPage.maskPin(pin)`: `'*'.repeat(pin.length)`. -/
def maskPin (pin : String) : String :=
  String.mk (List.replicate pin.length '*')

/-! ## ApiService: requests and headers (src/src/app/api-service.ts) -/

/-- An outgoing HTTP request as the client shapes it: method, full URL,
header list (bodies carry no headers and are modelled separately). -/
structure HttpRequest where
  method : String
  url : String
  headers : List (String × String)
deriving Repr, DecidableEq

/-- `ApiService.headers()`: the headers attached via
`{ headers: this.headers() }` by list, latest, export and import. -/
def apiHeaders (apiKey : String) : List (String × String) :=
  [("Accept", "application/json"),
   ("Content-Type", "application/json"),
   ("X-API-KEY", apiKey)]

/-- `ApiService.getBaseUrl()`: throws `'Server nicht gesetzt'` while the
base URL is unset. -/
def getBaseUrl (c : ApiConn) : Except String String :=
  if c.baseUrl = "" then .error "Server nicht gesetzt" else .ok c.baseUrl

/-- `base.replace(/\/+$/, '')`: strip the trailing run of slashes. -/
def stripTrailingSlashes (s : String) : String :=
  String.mk (List.rdropWhile (fun c => c = '/') s.data)

/-- Hexadecimal digit in the uppercase alphabet used by
`encodeURIComponent`. -/
def hexDigitChar (n : Nat) : Char :=
  if n < 10 then Char.ofNat ('0'.toNat + n) else Char.ofNat ('A'.toNat + (n - 10))

/-- The UTF-8 bytes of one character. -/
def utf8BytesOfChar (c : Char) : List Nat :=
  let n := c.toNat
  if n < 128 then [n]
  else if n < 2048 then [192 + n / 64, 128 + n % 64]
  else if n < 65536 then [224 + n / 4096, 128 + (n / 64) % 64, 128 + n % 64]
  else [240 + n / 262144, 128 + (n / 4096) % 64, 128 + (n / 64) % 64, 128 + n % 64]

/-- The characters `encodeURIComponent` leaves unescaped. -/
def uriUnreserved (c : Char) : Bool :=
  c.isAlphanum || c ∈ ['-', '_', '.', '!', '~', '*', Char.ofNat 39, '(', ')']

/-- JavaScript `encodeURIComponent`: unreserved characters pass through,
every other character becomes `%HH` per UTF-8 byte. -/
def encodeURIComponent (s : String) : String :=
  String.mk (s.data.foldr
    (fun c acc =>
      (if uriUnreserved c then [c]
       else (utf8BytesOfChar c).foldr
         (fun b a => '%' :: hexDigitChar (b / 16) :: hexDigitChar (b % 16) :: a) []) ++ acc)
    [])

/-- `ApiService.url(path)`: strip trailing slashes off the base URL and
ensure the path is absolute. -/
def urlFor (c : ApiConn) (path : String) : Except String String :=
  (getBaseUrl c).map fun base =>
    stripTrailingSlashes base ++ (if path.startsWith "/" then path else "/" ++ path)

/-- `ApiService.list(app)`: GET `/backups/?app=...` with `this.headers()`. -/
def listRequest (c : ApiConn) (apiKey app : String) : Except String HttpRequest :=
  (urlFor c ("/backups/?app=" ++ encodeURIComponent app)).map fun u =>
    { method := "GET", url := u, headers := apiHeaders apiKey }

/-- `ApiService.latest(app)`: GET `/backups/latest/?app=...` with
`this.headers()`. -/
def latestRequest (c : ApiConn) (apiKey app : String) : Except String HttpRequest :=
  (urlFor c ("/backups/latest/?app=" ++ encodeURIComponent app)).map fun u =>
    { method := "GET", url := u, headers := apiHeaders apiKey }

/-- `ApiService.export(app, body)`: POST `/backups/export/` with
`this.headers()`. -/
def exportRequest (c : ApiConn) (apiKey : String) : Except String HttpRequest :=
  (urlFor c "/backups/export/").map fun u =>
    { method := "POST", url := u, headers := apiHeaders apiKey }

/-- `ApiService.import(req)`: POST `/backups/import/` with
`this.headers()`. -/
def importRequest (c : ApiConn) (apiKey : String) : Except String HttpRequest :=
  (urlFor c "/backups/import/").map fun u =>
    { method := "POST", url := u, headers := apiHeaders apiKey }

/-- `ApiService.health()`: GET `/health` — with freshly built headers
`new HttpHeaders({ Accept: 'application/json' })` instead of
`this.headers()`. -/
def healthRequest (c : ApiConn) : Except String HttpRequest :=
  (urlFor c "/health").map fun u =>
    { method := "GET", url := u, headers := [("Accept", "application/json")] }

/-! ## Specification-side predicates -/

/-- The reveal session armed by `showPin(3)` at time `t0`: revealed, the
interval callback holding `(start, totalMs) = (t0, 3000)`, and the
terminal timeout due at `t0 + 3000`. -/
def ArmedAt (t0 : Nat) (s : RevealState) : Prop :=
  s.isRevealed = true ∧ s.intervalId = some (t0, 3000) ∧ s.timeoutId = some (t0 + 3000)

/-- Fully re-masked: hidden, zero progress, both timers disarmed. -/
def MaskedCleared (s : RevealState) : Prop :=
  s.isRevealed = false ∧ s.progress = 0 ∧ s.timeoutId = none ∧ s.intervalId = none

/-- Inductive invariant of the reveal state machine: progress within
`[0,1]`, zero progress while masked, and an armed interval implies a
revealed state whose captured duration is the 3000 ms of `showPin(3)`. -/
def RevealInv (s : RevealState) : Prop :=
  0 ≤ s.progress ∧ s.progress ≤ 1 ∧
  (s.isRevealed = false → s.progress = 0) ∧
  (∀ start totalMs, s.intervalId = some (start, totalMs) →
    s.isRevealed = true ∧ totalMs = 3000)

/-- The connection state right after `setConnection("192.168.1.5","8080")`
succeeds on a fresh service. -/
def configuredConn : ApiConn :=
  { ip := "192.168.1.5", port := "8080",
    baseUrl := "http://192.168.1.5:8080/api",
    prefServerIp := some "192.168.1.5", prefServerPort := some "8080" }

/-! ## Theorems -/

/-- Claim C9: on a fresh service, `setConnection("192.168.1.5","8080")`
succeeds and the derived base URL is `http://192.168.1.5:8080/api`;
`setConnection("8.8.8.8","8080")` and `setConnection("192.168.1.5","70000")`
fail validation. -/
theorem endpoint_validation_examples :
    setConnection initialConn "192.168.1.5" "8080" = .ok configuredConn ∧
    configuredConn.baseUrl = "http://192.168.1.5:8080/api" ∧
    setConnection initialConn "8.8.8.8" "8080" = .error "Nur interne IP erlaubt" ∧
    setConnection initialConn "192.168.1.5" "70000" = .error "Port ungültig" :=
  ⟨rfl, rfl, rfl, rfl⟩

/-- Claim C2, evaluated at the failing input: the canonical private
address `172.16.0.1` is rejected by `ApiService.validate` (with the valid
port `"8080"`), because the `172\.(1[6-9]|2[0-9]|3[0-1])` alternative of
the regex lacks a trailing `\.`; the same slip makes the matcher accept
the non-address `"172.160.1"`. -/
theorem validate_rejects_172_16_private_ip :
    ipRegexTest "172.16.0.1" = false ∧
    setConnection initialConn "172.16.0.1" "8080" = .error "Nur interne IP erlaubt" ∧
    ipRegexTest "172.160.1" = true ∧
    ipRegexTest "172.31.0.1" = false ∧
    ipRegexTest "10.0.0.1" = true ∧
    ipRegexTest "192.168.0.1" = true :=
  ⟨rfl, rfl, rfl, rfl, rfl, rfl⟩

/-- Claim C10: `maskPin` yields a string of the pin's length consisting
solely of `'*'`, so the masked display depends only on the pin's length. -/
theorem maskPin_masks (pin : String) :
    (maskPin pin).length = pin.length ∧
    (∀ c ∈ (maskPin pin).data, c = '*') ∧
    (∀ q : String, q.length = pin.length → maskPin q = maskPin pin) := by
  refine ⟨?_, ?_, ?_⟩
  · simp [maskPin, String.length_mk]
  · intro c hc
    exact List.eq_of_mem_replicate hc
  · intro q hq
    unfold maskPin
    rw [hq]

/-- Claim C8: importing the very backup envelope `exportJSON` built from
an item list adopts exactly that list — the round trip preserves the item
list, in particular as a set of name/pin pairs. -/
theorem export_import_roundtrip (l : List PinItem) (p : Option String) :
    importJSON { backup := some { payload := some (exportBody l).payload }, path := p } l =
      (l, .success ("Import erfolgreich :\n" ++ jsShow p)) ∧
    (importJSON { backup := some { payload := some (exportBody l).payload }, path := p } l).1
      = l ∧
    (∀ x, x ∈ (importJSON { backup := some { payload := some (exportBody l).payload }, path := p } l).1 ↔ x ∈ l) := by
  refine ⟨rfl, rfl, fun x => Iff.rfl⟩

/-- Claim C7: whenever the value at `payload.items` of an import response
is not an array (for instance the string `"not-an-array"`, or missing
entirely), both import paths reject with their shape notice and leave the
item list unchanged (the handlers are total functions — no crash). -/
theorem import_shape_guard (r : LatestWire) (resPayload : Option BackupPayload)
    (path : String) (l : List PinItem)
    (h1 : (latestItems r).isArray = false)
    (h2 : (importResItems resPayload).isArray = false) :
    importJSON r l = (l, .rejected "Backup ist ungültig: payload fehlt oder kein Array") ∧
    listImportHandler resPayload path l = (l, .rejected "Backup ist ungültig") := by
  constructor
  · unfold importJSON
    cases hv : latestItems r <;> simp_all [JsValue.isArray]
  · unfold listImportHandler
    cases hv : importResItems resPayload <;> simp_all [JsValue.isArray]

/-- Witness for `import_shape_guard`: the spec's own example, a response
with `payload.items = "not-an-array"` on one path and an absent payload on
the other. -/
theorem import_shape_guard_witness :
    (latestItems { backup := some { payload := some { items := .str "not-an-array" } }, path := none }).isArray = false ∧
    (importResItems none).isArray = false ∧
    (importJSON { backup := some { payload := some { items := .str "not-an-array" } }, path := none } [{ name := "mail", pin := "1234" }] =
      ([{ name := "mail", pin := "1234" }], .rejected "Backup ist ungültig: payload fehlt oder kein Array") ∧
     listImportHandler none "b.json" [{ name := "mail", pin := "1234" }] =
      ([{ name := "mail", pin := "1234" }], .rejected "Backup ist ungültig")) :=
  ⟨rfl, rfl,
    import_shape_guard { backup := some { payload := some { items := .str "not-an-array" } }, path := none } none "b.json" [{ name := "mail", pin := "1234" }] rfl rfl⟩

/-- Claim C4: from the masked state with a target entry and no timers
armed, a toggle whose biometric verification returns `false` only appends
the failure alert — the state stays masked, both timer fields stay `none`,
and progress and entry are untouched. -/
theorem biometric_denied_stays_masked (s : RevealState) (e : PinItem) (now : Nat)
    (hE : s.entry = some e) (hM : s.isRevealed = false)
    (hT : s.timeoutId = none) (hI : s.intervalId = none) :
    toggleReveal false now s =
      { s with alerts := "Biometrische Authentifizierung fehlgeschlagen" :: s.alerts } ∧
    (toggleReveal false now s).isRevealed = false ∧
    (toggleReveal false now s).timeoutId = none ∧
    (toggleReveal false now s).intervalId = none ∧
    (toggleReveal false now s).progress = s.progress := by
  have h : toggleReveal false now s = showPin 3 false now s := by
    unfold toggleReveal
    rw [hE]
    simp [hM]
  rw [h]
  unfold showPin
  simp [hM, hT, hI]

/-- Witness for `biometric_denied_stays_masked` at the freshly initialised
component holding one entry. -/
theorem biometric_denied_stays_masked_witness :
    (initState (some { name := "mail", pin := "1234" })).entry = some { name := "mail", pin := "1234" } ∧
    (initState (some { name := "mail", pin := "1234" })).isRevealed = false ∧
    (initState (some { name := "mail", pin := "1234" })).timeoutId = none ∧
    (initState (some { name := "mail", pin := "1234" })).intervalId = none ∧
    (toggleReveal false 0 (initState (some { name := "mail", pin := "1234" })) =
      { initState (some { name := "mail", pin := "1234" }) with alerts := "Biometrische Authentifizierung fehlgeschlagen" :: (initState (some { name := "mail", pin := "1234" })).alerts } ∧
     (toggleReveal false 0 (initState (some { name := "mail", pin := "1234" }))).isRevealed = false ∧
     (toggleReveal false 0 (initState (some { name := "mail", pin := "1234" }))).timeoutId = none ∧
     (toggleReveal false 0 (initState (some { name := "mail", pin := "1234" }))).intervalId = none ∧
     (toggleReveal false 0 (initState (some { name := "mail", pin := "1234" }))).progress = (initState (some { name := "mail", pin := "1234" })).progress) :=
  ⟨rfl, rfl, rfl, rfl,
    biometric_denied_stays_masked (initState (some { name := "mail", pin := "1234" })) { name := "mail", pin := "1234" } 0 rfl rfl rfl rfl⟩

/-- Claim C3: `showPin(3)` arms the session at its call time `t0`; every
tick strictly before `t0 + 3000` leaves the session revealed and armed,
while at `t0 + 3000` the interval tick and the terminal timeout each
produce the masked state with zero progress and both timers cleared — so
whichever of the two fires first re-masks and disarms the other. -/
theorem reveal_masked_at_deadline (t0 : Nat) (s : RevealState) (h : ArmedAt t0 s) :
    (∀ s0 : RevealState, ArmedAt t0 (showPin 3 true t0 s0)) ∧
    (∀ k, 1 ≤ k → 50 * k < 3000 → ArmedAt t0 (intervalTick (t0 + 50 * k) s)) ∧
    MaskedCleared (intervalTick (t0 + 3000) s) ∧
    MaskedCleared (timeoutFire s) := by
  obtain ⟨hR, hI, hT⟩ := h
  refine ⟨?_, ?_, ?_, ?_⟩
  · intro s0
    exact ⟨rfl, rfl, rfl⟩
  · intro k hk hlt
    unfold intervalTick
    rw [hI]
    have he : t0 + 50 * k - t0 = 50 * k := by omega
    have hrem : 3000 - (t0 + 50 * k - t0) ≠ 0 := by omega
    simp only [he] at hrem ⊢
    simp only [if_neg hrem]
    exact ⟨hR, rfl, hT⟩
  · unfold intervalTick
    rw [hI]
    have he : 3000 - (t0 + 3000 - t0) = 0 := by omega
    simp only [he, if_pos rfl]
    exact ⟨rfl, rfl, rfl, rfl⟩
  · exact ⟨rfl, rfl, rfl, rfl⟩

/-- Witness for `reveal_masked_at_deadline`: the session armed at time 0
by a successful `showPin(3)` on the fresh component. -/
theorem reveal_masked_at_deadline_witness :
    ArmedAt 0 (showPin 3 true 0 (initState none)) ∧
    ((∀ s0 : RevealState, ArmedAt 0 (showPin 3 true 0 s0)) ∧
     (∀ k, 1 ≤ k → 50 * k < 3000 → ArmedAt 0 (intervalTick (0 + 50 * k) (showPin 3 true 0 (initState none)))) ∧
     MaskedCleared (intervalTick (0 + 3000) (showPin 3 true 0 (initState none))) ∧
     MaskedCleared (timeoutFire (showPin 3 true 0 (initState none)))) :=
  ⟨⟨rfl, rfl, rfl⟩,
    reveal_masked_at_deadline 0 (showPin 3 true 0 (initState none)) ⟨rfl, rfl, rfl⟩⟩

/-- The invariant holds in the initial state. -/
theorem revealInv_init (e : Option PinItem) : RevealInv (initState e) := by
  refine ⟨le_refl _, by norm_num [initState], fun _ => rfl, ?_⟩
  intro start totalMs h
  simp [initState] at h

/-- `hidePin` establishes the invariant outright. -/
theorem revealInv_hidePin (s : RevealState) : RevealInv (hidePin s) := by
  refine ⟨le_refl _, by norm_num [hidePin, clearTimers], fun _ => rfl, ?_⟩
  intro start totalMs h
  simp [hidePin, clearTimers] at h

/-- Every event of the reveal state machine preserves the invariant. -/
theorem revealInv_step {s s' : RevealState} (hInv : RevealInv s)
    (hstep : RevealStep s s') : RevealInv s' := by
  obtain ⟨h0, h1, hM, hIv⟩ := hInv
  cases hstep with
  | toggle verified now s =>
    unfold toggleReveal
    cases hE : s.entry with
    | none => exact ⟨h0, h1, hM, hIv⟩
    | some e =>
      cases hR : s.isRevealed with
      | true =>
        show RevealInv (if (true : Bool) = true then hidePin s else showPin 3 verified now s)
        rw [if_pos rfl]
        exact revealInv_hidePin s
      | false =>
        show RevealInv (if (false : Bool) = true then hidePin s else showPin 3 verified now s)
        rw [if_neg (by decide)]
        unfold showPin
        cases verified with
        | false =>
          rw [if_pos rfl]
          exact ⟨h0, h1, fun hh => hM hh, fun a b hab => hIv a b hab⟩
        | true =>
          rw [if_neg (by decide)]
          refine ⟨zero_le_one, le_refl _, ?_, ?_⟩
          · intro hfalse
            exact Bool.noConfusion (hfalse : (true : Bool) = false)
          · intro a b hab
            simp only [Option.some.injEq, Prod.mk.injEq] at hab
            exact ⟨rfl, hab.2.symm⟩
  | tick s start totalMs k h hk =>
    obtain ⟨hRev, hTot⟩ := hIv start totalMs h
    subst hTot
    unfold intervalTick
    rw [h]
    by_cases hz : 3000 - (start + 50 * k - start) = 0
    · simp only [if_pos hz]
      exact revealInv_hidePin _
    · simp only [if_neg hz]
      refine ⟨?_, ?_, ?_, ?_⟩
      · positivity
      · rw [div_le_one (by norm_num)]
        have hle : (3000 - (start + 50 * k - start)) ≤ 3000 := by omega
        exact_mod_cast hle
      · intro hfalse
        have hcontra : s.isRevealed = false := hfalse
        rw [hRev] at hcontra
        exact Bool.noConfusion hcontra
      · intro a b hab
        simp only [Option.some.injEq, Prod.mk.injEq] at hab
        exact ⟨hRev, hab.2.symm⟩
  | timeout s t h =>
    exact revealInv_hidePin s
  | destroy s =>
    refine ⟨h0, h1, hM, ?_⟩
    intro a b hab
    simp [clearTimers] at hab

/-- Every reachable state satisfies the invariant. -/
theorem revealInv_of_reachable {s : RevealState} (h : RevealReachable s) :
    RevealInv s := by
  induction h with
  | init e => exact revealInv_init e
  | step _ hstep ih => exact revealInv_step ih hstep

/-- Claim C5: in every reachable state of the reveal controller the
progress lies in `[0,1]` and is exactly `0` whenever the state is masked —
in particular every transition into the masked state resets it to `0`. -/
theorem reveal_progress_invariant (s : RevealState) (h : RevealReachable s) :
    0 ≤ s.progress ∧ s.progress ≤ 1 ∧ (s.isRevealed = false → s.progress = 0) := by
  obtain ⟨h0, h1, hM, _⟩ := revealInv_of_reachable h
  exact ⟨h0, h1, hM⟩

/-- Witness for `reveal_progress_invariant` at the initial state. -/
theorem reveal_progress_invariant_witness :
    RevealReachable (initState none) ∧
    (0 ≤ (initState none).progress ∧ (initState none).progress ≤ 1 ∧
      ((initState none).isRevealed = false → (initState none).progress = 0)) :=
  ⟨RevealReachable.init none,
    reveal_progress_invariant (initState none) (RevealReachable.init none)⟩

/-- Claim C1, evaluated against the code: on any configured connection,
the list, latest, export and import requests all carry the
`X-API-KEY` header built by `ApiService.headers()`, but the health request
is built with fresh `Accept`-only headers and carries no `X-API-KEY` at
all — contradicting both the claim and the class's own documentation. -/
theorem health_request_omits_api_key (c : ApiConn) (apiKey app : String)
    (h : c.baseUrl ≠ "") :
    (∃ r, listRequest c apiKey app = .ok r ∧ ("X-API-KEY", apiKey) ∈ r.headers) ∧
    (∃ r, latestRequest c apiKey app = .ok r ∧ ("X-API-KEY", apiKey) ∈ r.headers) ∧
    (∃ r, exportRequest c apiKey = .ok r ∧ ("X-API-KEY", apiKey) ∈ r.headers) ∧
    (∃ r, importRequest c apiKey = .ok r ∧ ("X-API-KEY", apiKey) ∈ r.headers) ∧
    (∃ r, healthRequest c = .ok r ∧ r.headers = [("Accept", "application/json")] ∧
      ∀ v, ("X-API-KEY", v) ∉ r.headers) := by
  have hbase : getBaseUrl c = .ok c.baseUrl := by
    unfold getBaseUrl
    rw [if_neg h]
  have hu : ∀ p, urlFor c p =
      .ok (stripTrailingSlashes c.baseUrl ++ (if p.startsWith "/" then p else "/" ++ p)) := by
    intro p
    unfold urlFor
    rw [hbase]
    rfl
  refine ⟨?_, ?_, ?_, ?_, ?_⟩
  · unfold listRequest
    rw [hu]
    exact ⟨_, rfl, by simp [apiHeaders]⟩
  · unfold latestRequest
    rw [hu]
    exact ⟨_, rfl, by simp [apiHeaders]⟩
  · unfold exportRequest
    rw [hu]
    exact ⟨_, rfl, by simp [apiHeaders]⟩
  · unfold importRequest
    rw [hu]
    exact ⟨_, rfl, by simp [apiHeaders]⟩
  · unfold healthRequest
    rw [hu]
    refine ⟨_, rfl, rfl, ?_⟩
    intro v hv
    rw [List.mem_singleton] at hv
    have h1 : "X-API-KEY" = "Accept" := congrArg Prod.fst hv
    exact absurd h1 (by decide)

/-- Witness for `health_request_omits_api_key` on the connection produced
by `setConnection("192.168.1.5","8080")`. -/
theorem health_request_omits_api_key_witness :
    configuredConn.baseUrl ≠ "" ∧
    ((∃ r, listRequest configuredConn "secret" "pin" = .ok r ∧ ("X-API-KEY", "secret") ∈ r.headers) ∧
     (∃ r, latestRequest configuredConn "secret" "pin" = .ok r ∧ ("X-API-KEY", "secret") ∈ r.headers) ∧
     (∃ r, exportRequest configuredConn "secret" = .ok r ∧ ("X-API-KEY", "secret") ∈ r.headers) ∧
     (∃ r, importRequest configuredConn "secret" = .ok r ∧ ("X-API-KEY", "secret") ∈ r.headers) ∧
     (∃ r, healthRequest configuredConn = .ok r ∧ r.headers = [("Accept", "application/json")] ∧
       ∀ v, ("X-API-KEY", v) ∉ r.headers)) :=
  ⟨by decide, health_request_omits_api_key configuredConn "secret" "pin" (by decide)⟩

/-- Dropping a leading run of `p`-elements off an already left-and-right
trimmed list changes nothing: the core of trim's idempotence. -/
theorem dropWhile_rdropWhile_self {α : Type} (p : α → Bool) (l : List α) :
    List.dropWhile p (List.rdropWhile p (List.dropWhile p l)) =
      List.rdropWhile p (List.dropWhile p l) := by
  cases hc : List.rdropWhile p (List.dropWhile p l) with
  | nil => rfl
  | cons a rs =>
    have hpre := List.rdropWhile_prefix (p := p) (l := List.dropWhile p l)
    rw [hc] at hpre
    obtain ⟨t, ht⟩ := hpre
    have hidem := List.dropWhile_idempotent (p := p) (l := l)
    rw [← ht] at hidem
    have hpa : p a = false := by
      by_contra hfa
      have hpa' : p a = true := by simpa using hfa
      rw [List.cons_append, List.dropWhile_cons_of_pos hpa'] at hidem
      have hlen := congrArg List.length hidem
      have hle := (List.dropWhile_suffix (l := rs ++ t) p).length_le
      simp only [List.length_cons, List.length_append] at hlen hle
      omega
    exact List.dropWhile_cons_of_neg (by simp [hpa])

/-- JavaScript's `trim` is idempotent. -/
theorem jsTrim_idem (s : String) : jsTrim (jsTrim s) = jsTrim s := by
  show String.mk (List.rdropWhile Char.isWhitespace (List.dropWhile Char.isWhitespace
      (List.rdropWhile Char.isWhitespace (List.dropWhile Char.isWhitespace s.data)))) =
    String.mk (List.rdropWhile Char.isWhitespace (List.dropWhile Char.isWhitespace s.data))
  rw [dropWhile_rdropWhile_self, List.rdropWhile_idempotent]

/-- The normalised name of an item built from already-trimmed fields. -/
theorem normName_trimmed (u v : String) :
    normName { name := jsTrim u, pin := v } = jsToLower (jsTrim u) := by
  unfold normName normalizeName
  rw [jsTrim_idem]

/-- `existsByName` finds exactly the normalised-name collisions. -/
theorem existsByName_eq_true_iff (l : List PinItem) (name : String) :
    Service.existsByName l name = true ↔ ∃ it ∈ l, normName it = normalizeName name := by
  unfold Service.existsByName normName normalizeName
  simp [List.any_eq_true]

/-- Prepending an item with a fresh normalised name preserves uniqueness. -/
theorem uniqNames_cons {item : PinItem} {l : List PinItem} (hU : UniqNames l)
    (hno : ∀ it ∈ l, normName it ≠ normName item) : UniqNames (item :: l) := by
  intro i j hij
  rcases i with ⟨iv, hi⟩
  rcases j with ⟨jv, hj⟩
  cases iv with
  | zero =>
    cases jv with
    | zero => exact absurd (Fin.ext rfl) hij
    | succ jv' =>
      have hjl : jv' < l.length := by
        have := hj
        simp only [List.length_cons] at this
        omega
      have e2 : (item :: l).get ⟨jv' + 1, hj⟩ = l.get ⟨jv', hjl⟩ := rfl
      show normName ((item :: l).get ⟨0, hi⟩) ≠ normName ((item :: l).get ⟨jv' + 1, hj⟩)
      rw [e2]
      exact fun heq => hno (l.get ⟨jv', hjl⟩) (List.get_mem l jv' hjl) heq.symm
  | succ iv' =>
    have hil : iv' < l.length := by
      have := hi
      simp only [List.length_cons] at this
      omega
    have e1 : (item :: l).get ⟨iv' + 1, hi⟩ = l.get ⟨iv', hil⟩ := rfl
    cases jv with
    | zero =>
      show normName ((item :: l).get ⟨iv' + 1, hi⟩) ≠ normName ((item :: l).get ⟨0, hj⟩)
      rw [e1]
      exact hno (l.get ⟨iv', hil⟩) (List.get_mem l iv' hil)
    | succ jv' =>
      have hjl : jv' < l.length := by
        have := hj
        simp only [List.length_cons] at this
        omega
      have e2 : (item :: l).get ⟨jv' + 1, hj⟩ = l.get ⟨jv', hjl⟩ := rfl
      show normName ((item :: l).get ⟨iv' + 1, hi⟩) ≠ normName ((item :: l).get ⟨jv' + 1, hj⟩)
      rw [e1, e2]
      refine hU ⟨iv', hil⟩ ⟨jv', hjl⟩ ?_
      intro hf
      exact hij (Fin.ext (by simpa using congrArg Fin.val hf))

/-- Overwriting one position with an item whose normalised name clashes
with no other position preserves uniqueness. -/
theorem uniqNames_set {l : List PinItem} (hU : UniqNames l) {index : Nat} {a : PinItem}
    (hdiff : ∀ j : Fin l.length, (j : Nat) ≠ index → normName (l.get j) ≠ normName a) :
    UniqNames (l.set index a) := by
  intro i j hij
  rcases i with ⟨iv, hi⟩
  rcases j with ⟨jv, hj⟩
  have hi' : iv < l.length := by simpa using hi
  have hj' : jv < l.length := by simpa using hj
  have hvne : iv ≠ jv := fun hf => hij (Fin.ext hf)
  have key : ∀ (v : Nat) (hv : v < (l.set index a).length) (hv' : v < l.length),
      (l.set index a).get ⟨v, hv⟩ = if index = v then a else l.get ⟨v, hv'⟩ := by
    intro v hv hv'
    simp [List.get_eq_getElem, List.getElem_set]
  show normName ((l.set index a).get ⟨iv, hi⟩) ≠ normName ((l.set index a).get ⟨jv, hj⟩)
  rw [key iv hi hi', key jv hj hj']
  by_cases h1 : index = iv <;> by_cases h2 : index = jv
  · exact absurd (h1.symm.trans h2) hvne
  · rw [if_pos h1, if_neg h2]
    exact fun heq => (hdiff ⟨jv, hj'⟩ (fun hf => h2 hf.symm)) heq.symm
  · rw [if_neg h1, if_pos h2]
    exact hdiff ⟨iv, hi'⟩ (fun hf => h1 hf.symm)
  · rw [if_neg h1, if_neg h2]
    refine hU ⟨iv, hi'⟩ ⟨jv, hj'⟩ ?_
    intro hf
    exact hvne (by simpa using congrArg Fin.val hf)

/-- Claim C6: on a store satisfying normalised-name uniqueness, an `add`
whose name collides with a stored entry throws (leaving the list as it
was, since only `.ok` results carry a new list), an `update` whose new
name collides with a different index throws `NAME_EXISTS`, and every
`add`/`update` that returns a list returns one that again satisfies
normalised-name uniqueness. -/
theorem store_uniqueness (l : List PinItem) (hU : UniqNames l) :
    (∀ item, Service.existsByName l item.name = true → Service.add l item = .error "") ∧
    (∀ item l', Service.add l item = .ok l' → UniqNames l') ∧
    (∀ index updated item, l[index]? = some item →
      (∃ j : Fin l.length, (j : Nat) ≠ index ∧
        normName (l.get j) = normalizeName updated.name) →
      Service.update l index updated = .error "NAME_EXISTS") ∧
    (∀ index updated l', Service.update l index updated = .ok l' → UniqNames l') := by
  refine ⟨?_, ?_, ?_, ?_⟩
  · intro item h
    unfold Service.add
    rw [if_pos h]
  · intro item l' h
    unfold Service.add at h
    by_cases hex : Service.existsByName l item.name = true
    · rw [if_pos hex] at h
      exact Except.noConfusion h
    · rw [if_neg hex] at h
      injection h with hh
      subst hh
      refine uniqNames_cons hU ?_
      intro it hit heq
      apply hex
      rw [existsByName_eq_true_iff]
      exact ⟨it, hit, heq⟩
  · intro index updated item hitem hcol
    obtain ⟨j, hjne, hjeq⟩ := hcol
    obtain ⟨hlt, hget⟩ := List.getElem?_eq_some_iff.mp hitem
    have hch : jsToLower (jsTrim item.name) ≠ jsToLower (jsTrim updated.name) := by
      intro heq
      have hitem' : l.get ⟨index, hlt⟩ = item := hget
      refine hU j ⟨index, hlt⟩ ?_ ?_
      · intro hf
        exact hjne (congrArg Fin.val hf)
      · rw [hitem', hjeq]
        exact heq.symm
    have hany : (l.enum.any fun q =>
        decide (q.1 ≠ index) && (jsToLower (jsTrim q.2.name) == jsToLower (jsTrim updated.name)))
        = true := by
      rw [List.any_eq_true, List.exists_mem_enum]
      refine ⟨j.val, j.isLt, ?_⟩
      rw [Bool.and_eq_true]
      exact ⟨decide_eq_true hjne, beq_iff_eq.mpr hjeq⟩
    simp only [Service.update, hitem]
    rw [if_pos hch, if_pos hany]
  · intro index updated l' h
    cases hq : l[index]? with
    | none =>
      simp only [Service.update, hq] at h
      injection h with hh
      subst hh
      exact hU
    | some item =>
      simp only [Service.update, hq] at h
      by_cases hch : jsToLower (jsTrim item.name) ≠ jsToLower (jsTrim updated.name)
      · rw [if_pos hch] at h
        cases hany : (l.enum.any fun q =>
            decide (q.1 ≠ index) && (jsToLower (jsTrim q.2.name) == jsToLower (jsTrim updated.name))) with
        | true =>
          rw [if_pos hany] at h
          exact Except.noConfusion h
        | false =>
          rw [if_neg (by rw [hany]; exact Bool.noConfusion)] at h
          injection h with hh
          subst hh
          refine uniqNames_set hU ?_
          intro j hjne heq
          rw [List.any_eq_false] at hany
          rw [List.forall_mem_enum] at hany
          refine hany j.val j.isLt ?_
          rw [Bool.and_eq_true]
          rw [normName_trimmed] at heq
          exact ⟨decide_eq_true hjne, beq_iff_eq.mpr heq⟩
      · rw [if_neg hch] at h
        injection h with hh
        subst hh
        rw [not_not] at hch
        obtain ⟨hlt, hget⟩ := List.getElem?_eq_some_iff.mp hq
        refine uniqNames_set hU ?_
        intro j hjne heq
        rw [normName_trimmed] at heq
        refine hU j ⟨index, hlt⟩ ?_ ?_
        · intro hf
          exact hjne (congrArg Fin.val hf)
        · have hitem' : l.get ⟨index, hlt⟩ = item := hget
          rw [hitem']
          rw [heq, ← hch]
          rfl

/-- Witness for `store_uniqueness` on a two-item store with distinct
normalised names. -/
theorem store_uniqueness_witness :
    UniqNames [⟨"Mail", "1234"⟩, ⟨"bank", "5678"⟩] ∧
    ((∀ item, Service.existsByName [⟨"Mail", "1234"⟩, ⟨"bank", "5678"⟩] item.name = true →
        Service.add [⟨"Mail", "1234"⟩, ⟨"bank", "5678"⟩] item = .error "") ∧
     (∀ item l', Service.add [⟨"Mail", "1234"⟩, ⟨"bank", "5678"⟩] item = .ok l' → UniqNames l') ∧
     (∀ index updated item, ([⟨"Mail", "1234"⟩, ⟨"bank", "5678"⟩] : List PinItem)[index]? = some item →
        (∃ j : Fin ([⟨"Mail", "1234"⟩, ⟨"bank", "5678"⟩] : List PinItem).length, (j : Nat) ≠ index ∧
          normName (([⟨"Mail", "1234"⟩, ⟨"bank", "5678"⟩] : List PinItem).get j) = normalizeName updated.name) →
        Service.update [⟨"Mail", "1234"⟩, ⟨"bank", "5678"⟩] index updated = .error "NAME_EXISTS") ∧
     (∀ index updated l', Service.update [⟨"Mail", "1234"⟩, ⟨"bank", "5678"⟩] index updated = .ok l' →
        UniqNames l')) :=
  ⟨by decide, store_uniqueness [⟨"Mail", "1234"⟩, ⟨"bank", "5678"⟩] (by decide)⟩

/-- Witness for `maskPin_masks` at the pin `"1234"`. -/
theorem maskPin_masks_witness :
    (maskPin "1234").length = ("1234" : String).length ∧
    (∀ c ∈ (maskPin "1234").data, c = '*') ∧
    (∀ q : String, q.length = ("1234" : String).length → maskPin q = maskPin "1234") :=
  maskPin_masks "1234"
